import Mathlib

/-
Shallow embedding of the vpw repository (Vlaamse Programmeerwedstrijd toolkit):
the generic contest-file harness (packages/vpw-core/src/vpw-file-parser.ts),
the slalom dynamic-programming solution (packages/vpw-2019-slalom-ts/src/slalom.ts)
and the ranking routine (the unnamed ranking module).

Conventions of the embedding:
- JS numbers that are integer-valued are modelled as Int; parseInt and Number
  are modelled on their integer fragment (exact below 2 to the 53rd, which every
  value in this development stays far under), and String(n) for an integer n is
  modelled by the canonical decimal printer intToDec.
- String functions are modelled character-by-character over List Char so that
  all definitions reduce inside the kernel.
- A JS out-of-range array read yields undefined; the input parser can only
  reach such a read on a truncated grouped file, which no claim exercises.  We
  represent that read by the sentinel string "undefined".
- Thrown exceptions become an explicit error type; console reporting becomes
  an explicit list of failure records returned by the runner functions.
-/

namespace VPW

/-- Digit characters to a natural number, most significant digit first. -/
def digitsOf (cs : List Char) : Nat :=
  cs.foldl (fun a c => a * 10 + (c.toNat - 48)) 0

/-- JS String.prototype.trim: drop whitespace from both ends. -/
def jsTrim (s : String) : String :=
  String.mk (((s.data.dropWhile Char.isWhitespace).reverse.dropWhile Char.isWhitespace).reverse)

/-- Decimal digits of a positive natural number, fuelled (fuel larger than the
number of digits suffices; we pass n + 1). -/
def natToDecAux : Nat → Nat → List Char
  | 0, _ => []
  | fuel + 1, n =>
    if n = 0 then []
    else natToDecAux fuel (n / 10) ++ [Char.ofNat (48 + n % 10)]

/-- Canonical decimal text of a natural number. -/
def natToDec (n : Nat) : List Char :=
  if n = 0 then ['0'] else natToDecAux (n + 1) n

/-- Canonical decimal text of an integer: the JS String(n) conversion for an
integer-valued number n. -/
def intToDec (n : Int) : String :=
  match n with
  | Int.ofNat m => String.mk (natToDec m)
  | Int.negSucc m => String.mk ('-' :: natToDec (m + 1))

/-- Integer fragment of JS parseInt(s, 10): skip leading and trailing
whitespace, optional sign, then the longest digit prefix; NaN (none) when that
prefix is empty.  Characters after the digit prefix are ignored, as in JS. -/
def parseIntJS (s : String) : Option Int :=
  let t := (jsTrim s).data
  let core := match t with
    | c :: cs => if c = '-' ∨ c = '+' then cs else t
    | [] => t
  let sign : Int := match t with
    | c :: _ => if c = '-' then -1 else 1
    | [] => 1
  let ds := core.takeWhile Char.isDigit
  if ds.isEmpty then none
  else some (sign * (digitsOf ds : Int))

/-- Integer fragment of JS Number(s): the whole trimmed string must be an
optionally signed digit run; NaN (none) otherwise.  Strings denoting
non-integer numbers (such as "3.5") also parse in JS, but no claim of this
development involves them. -/
def numberJS (s : String) : Option Int :=
  let t := (jsTrim s).data
  let core := match t with
    | c :: cs => if c = '-' ∨ c = '+' then cs else t
    | [] => t
  let sign : Int := match t with
    | c :: _ => if c = '-' then -1 else 1
    | [] => 1
  if core.length > 0 ∧ core.all Char.isDigit then some (sign * (digitsOf core : Int))
  else none

/-- One line of the simple-numbers check of readInputFile:
not isNaN(Number(line)) and line.trim() === String(Number(line)). -/
def isSimpleNumberLine (s : String) : Bool :=
  match numberJS s with
  | none => false
  | some n => intToDec n == jsTrim s

/-- lines.every of the per-line simple-number check. -/
def isSimpleNumbersFile (lines : List String) : Bool :=
  lines.all isSimpleNumberLine

/-- The group-marker test of the grouped branch of readInputFile:
not isNaN(parseInt(line, 10)) and String(parseInt(line, 10)) === line.trim(). -/
def isGroupMarker (s : String) : Bool :=
  match parseIntJS s with
  | none => false
  | some n => intToDec n == jsTrim s

/-- The marker-greater-than-one test of the no-count branch of readInputFile. -/
def markerGt1 (s : String) : Bool :=
  match parseIntJS s with
  | none => false
  | some n => (intToDec n == jsTrim s) && (1 < n)

/-- Split a character list at every newline, keeping empty pieces. -/
def splitNewlines : List Char → List (List Char)
  | [] => [[]]
  | c :: cs =>
    match splitNewlines cs with
    | [] => [[]]
    | g :: gs => if c = '\n' then [] :: g :: gs else (c :: g) :: gs

/-- content.split(newline).filter(line => line.trim() is nonempty). -/
def nonBlankLines (content : String) : List String :=
  ((splitNewlines content.data).map String.mk).filter (fun l => jsTrim l ≠ "")

/-- Array read lines[i]; out of range yields undefined (see file comment). -/
def lineAt (lines : List String) (i : Nat) : String :=
  lines.getD i "undefined"

/-- Errors thrown by the harness, with the data their messages report:
noTestCases is the empty-input error, countMismatch the mismatched-lengths
error of validateFileLengths (reporting both counts), groupedUnsupported the
FormatError of the no-count branch of readInputFile, and
missingExpectedOutput the error thrown by the runner functions for a 1-based
test-case index. -/
inductive VPWError where
  | noTestCases : VPWError
  | countMismatch (inputLen outputLen : Nat) : VPWError
  | groupedUnsupported : VPWError
  | missingExpectedOutput (index : Int) : VPWError
deriving DecidableEq, Repr

/-- The inner loop of the grouped branch of readInputFile: push parseInput of
the next n lines, advancing the cursor after each read. -/
def readRecords {TIn : Type} (parseInput : String → TIn) (lines : List String) :
    Nat → Nat → List TIn × Nat
  | 0, c => ([], c)
  | n + 1, c =>
    let r := parseInput (lineAt lines c)
    let rest := readRecords parseInput lines n (c + 1)
    (r :: rest.1, rest.2)

/-- One iteration of the grouped branch of readInputFile: inspect the line at
the cursor; when it passes the group-marker round-trip test, consume it and
then that many following lines as the records of the group; otherwise the line
itself becomes a one-record group. -/
def readGroupStep {TIn : Type} (parseInput : String → TIn) (lines : List String)
    (c : Nat) : List TIn × Nat :=
  match parseIntJS (lineAt lines c) with
  | some g =>
    if intToDec g == jsTrim (lineAt lines c) then readRecords parseInput lines g.toNat (c + 1)
    else ([parseInput (lineAt lines c)], c + 1)
  | none => ([parseInput (lineAt lines c)], c + 1)

/-- The for-loop of the grouped branch of readInputFile: one group per
remaining test case, threading the line cursor. -/
def readGroupedLoop {TIn : Type} (parseInput : String → TIn) (lines : List String) :
    Nat → Nat → List (List TIn)
  | 0, _ => []
  | t + 1, c =>
    let step := readGroupStep parseInput lines c
    step.1 :: readGroupedLoop parseInput lines t step.2

/-- readInputFile of VPWParser: classify the non-blank lines and parse them
into test-case groups, also returning the test count the branch records.  The
grouped branch transiently stores parseInt(lines[0]) in this.testCount; a NaN
or negative value there runs the loop zero times and validateFileLengths
overwrites the field before it is ever read, so we record the iteration count
directly. -/
def readInputFile {TIn : Type} (parseInput : String → TIn)
    (readInputCasesNumber : Bool) (content : String) :
    Except VPWError (List (List TIn) × Nat) :=
  let lines := nonBlankLines content
  if isSimpleNumbersFile lines then
    let inputLines := if readInputCasesNumber then lines.drop 1 else lines
    Except.ok (inputLines.map (fun l => [parseInput l]), inputLines.length)
  else if readInputCasesNumber then
    let testCount := ((parseIntJS (lineAt lines 0)).getD 0).toNat
    Except.ok (readGroupedLoop parseInput lines testCount 1, testCount)
  else if lines.any markerGt1 then Except.error VPWError.groupedUnsupported
  else Except.ok (lines.map (fun l => [parseInput l]), lines.length)

/-- Map.prototype.get of the expected-output map, modelled as an
insertion-ordered association list with pairwise-distinct keys. -/
def mapGet {TOut : Type} (m : List (Int × List TOut)) (k : Int) : Option (List TOut) :=
  (m.find? (fun p => p.1 == k)).map (fun p => p.2)

/-- One line of readOutputFile: append the value to the entry of its index,
creating the entry at the end of the map on first occurrence. -/
def addOutput {TOut : Type} (m : List (Int × List TOut)) (k : Int) (v : TOut) :
    List (Int × List TOut) :=
  if m.any (fun p => p.1 == k) then
    m.map (fun p => if p.1 == k then (p.1, p.2 ++ [v]) else p)
  else m ++ [(k, [v])]

/-- readOutputFile of VPWParser: parse every non-blank line into an
(index, value) pair and group the values by index, in line order. -/
def readOutputFile {TOut : Type} (parseOutput : String → Int × TOut)
    (content : String) : List (Int × List TOut) :=
  (nonBlankLines content).foldl
    (fun m l =>
      let p := parseOutput l
      addOutput m p.1 p.2)
    []

/-- validateFileLengths of VPWParser: error when there are no input groups or
when the group count differs from the number of map entries; on success the
final test count is the group count. -/
def validateFileLengths {TIn TOut : Type} (inputs : List (List TIn))
    (outputs : List (Int × List TOut)) : Except VPWError Nat :=
  if inputs.length = 0 then Except.error VPWError.noTestCases
  else if inputs.length ≠ outputs.length then
    Except.error (VPWError.countMismatch inputs.length outputs.length)
  else Except.ok inputs.length

/-- The state of a VPWParser instance after a successful initialize. -/
structure VPWState (TIn TOut : Type) where
  inputs : List (List TIn)
  outputs : List (Int × List TOut)
  inputs_with_errors : List (List TIn)
  testCount : Nat
deriving DecidableEq, Repr

/-- initialize of VPWParser: read the input file, read the output file, then
validate the collection sizes. -/
def initializeHarness {TIn TOut : Type} (parseInput : String → TIn)
    (parseOutput : String → Int × TOut) (readInputCasesNumber : Bool)
    (inContent outContent : String) : Except VPWError (VPWState TIn TOut) :=
  match readInputFile parseInput readInputCasesNumber inContent with
  | Except.error e => Except.error e
  | Except.ok (inputs, _tc) =>
    match validateFileLengths inputs (readOutputFile parseOutput outContent) with
    | Except.error e => Except.error e
    | Except.ok n => Except.ok ⟨inputs, readOutputFile parseOutput outContent, [], n⟩

/-- A mismatch reported by the group runner: the 1-based index, the input
group, the expected outputs and the actual outputs. -/
structure GroupFailure (TIn TOut : Type) where
  index : Nat
  input : List TIn
  expected : List TOut
  actual : List TOut
deriving DecidableEq, Repr

/-- A mismatch reported by the single-value runner. -/
structure SingleFailure (TIn TOut : Type) where
  index : Nat
  input : TIn
  expected : TOut
  actual : TOut
deriving DecidableEq, Repr

/-- compareArrays of VPWParser: equal lengths and elementwise agreement under
the configured output comparison. -/
def compareArrays {TOut : Type} (cmp : TOut → TOut → Bool)
    (actual expected : List TOut) : Bool :=
  (actual.length == expected.length) &&
    (List.zip actual expected).all (fun p => cmp p.1 p.2)

/-- The forEach loop of runner: walk the groups in order with their 0-based
index, throw on a missing expected-output entry, otherwise report mismatches
and continue. -/
def runnerLoop {TIn TOut : Type} (cmp : TOut → TOut → Bool)
    (outputs : List (Int × List TOut)) (fn : List TIn → List TOut) :
    List (List TIn) → Nat → List (GroupFailure TIn TOut) × Option VPWError
  | [], _ => ([], none)
  | g :: rest, idx =>
    match mapGet outputs (idx + 1 : Nat) with
    | none => ([], some (VPWError.missingExpectedOutput (idx + 1 : Nat)))
    | some expected =>
      let result := fn g
      let tail := runnerLoop cmp outputs fn rest (idx + 1)
      if compareArrays cmp result expected then tail
      else (⟨idx + 1, g, expected, result⟩ :: tail.1, tail.2)

/-- runner of VPWParser: reset the error-inputs list, then run the loop.  The
first component is what the call observably does (the reported mismatches, and
the thrown error when one occurs); the second is the state afterwards. -/
def runner {TIn TOut : Type} (cmp : TOut → TOut → Bool) (st : VPWState TIn TOut)
    (fn : List TIn → List TOut) :
    (List (GroupFailure TIn TOut) × Option VPWError) × VPWState TIn TOut :=
  (runnerLoop cmp st.outputs fn st.inputs 0, { st with inputs_with_errors := [] })

/-- The forEach loop of simpleRunner: take the first record of the group and
the first expected output of the entry; the truthiness test of the source
(if not expected) throws when the entry is absent, when its list is empty, or
when the present value is falsy.  jsFalsy embeds JS falsiness at the output
type (for integer outputs, being zero).  Mismatching groups are pushed onto
the error-inputs accumulator. -/
def simpleRunnerLoop {TIn TOut : Type} [Inhabited TIn] (cmp : TOut → TOut → Bool)
    (jsFalsy : TOut → Bool) (outputs : List (Int × List TOut)) (fn : TIn → TOut) :
    List (List TIn) → Nat →
    (List (SingleFailure TIn TOut) × List (List TIn)) × Option VPWError
  | [], _ => (([], []), none)
  | g :: rest, idx =>
    let input := g.headD default
    match (mapGet outputs (idx + 1 : Nat)).bind List.head? with
    | none => (([], []), some (VPWError.missingExpectedOutput (idx + 1 : Nat)))
    | some e =>
      if jsFalsy e then (([], []), some (VPWError.missingExpectedOutput (idx + 1 : Nat)))
      else
        let r := fn input
        let tail := simpleRunnerLoop cmp jsFalsy outputs fn rest (idx + 1)
        if cmp r e then tail
        else ((⟨idx + 1, input, e, r⟩ :: tail.1.1, g :: tail.1.2), tail.2)

/-- simpleRunner of VPWParser: reset the error-inputs list, run the loop, and
store the accumulated error inputs. -/
def simpleRunner {TIn TOut : Type} [Inhabited TIn] (cmp : TOut → TOut → Bool)
    (jsFalsy : TOut → Bool) (st : VPWState TIn TOut) (fn : TIn → TOut) :
    (List (SingleFailure TIn TOut) × Option VPWError) × VPWState TIn TOut :=
  let run := simpleRunnerLoop cmp jsFalsy st.outputs fn st.inputs 0
  ((run.1.1, run.2), { st with inputs_with_errors := run.1.2 })

/-- Decidable equality of Except results, for evaluating concrete runs. -/
instance exceptDecEq {ε α : Type} [DecidableEq ε] [DecidableEq α] :
    DecidableEq (Except ε α) := fun x y =>
  match x, y with
  | Except.ok a, Except.ok b =>
    if h : a = b then isTrue (by rw [h])
    else isFalse (by intro he; cases he; exact h rfl)
  | Except.error a, Except.error b =>
    if h : a = b then isTrue (by rw [h])
    else isFalse (by intro he; cases he; exact h rfl)
  | Except.ok _, Except.error _ => isFalse (by intro he; cases he)
  | Except.error _, Except.ok _ => isFalse (by intro he; cases he)

/-- JS Math.max over scores that may be negative infinity: none stands for
negative infinity. -/
def omax : Option Int → Option Int → Option Int
  | none, b => b
  | some a, none => some a
  | some a, some b => some (max a b)

/-- Addition over scores that may be negative infinity. -/
def oadd : Option Int → Option Int → Option Int
  | some a, some b => some (a + b)
  | _, _ => none

/-- The comparison maxPossibleScore is at most bestScoreSoFar, over scores
that may be negative infinity. -/
def oleB : Option Int → Option Int → Bool
  | none, _ => true
  | some _, none => false
  | some a, some b => a ≤ b

/-- Math.max spread over a row: negative infinity for an empty row. -/
def rowMax (r : List Int) : Option Int :=
  r.foldl (fun acc x => omax acc (some x)) none

/-- Map.prototype.set of the memo table: update the entry when the key is
present, append it otherwise. -/
def memoSet (m : List ((Nat × Int × Int) × Option Int)) (k : Nat × Int × Int)
    (v : Option Int) : List ((Nat × Int × Int) × Option Int) :=
  if m.any (fun p => p.1 == k) then
    m.map (fun p => if p.1 == k then (p.1, v) else p)
  else m ++ [(k, v)]

/-- The mutable search context of slalom: the memo table keyed by
(row, col, currentScore) and the running best score. -/
structure SlalomCtx where
  memo : List ((Nat × Int × Int) × Option Int)
  best : Option Int
deriving DecidableEq, Repr

/-- The dfs of slalom, with the mutable context threaded explicitly and the
recursion fuelled by remaining depth (slalom passes rows + 1, which the
descent row, row + 1, ..., rows never exhausts; the fuel-zero branch is
unreachable from slalom).  Children are evaluated left to right, as JS
evaluates the arguments of Math.max. -/
def slalomDfs (matrix : List (List Int)) (rows : Nat) (cols : Int)
    (maxScorePerRow : List (Option Int)) :
    Nat → Nat → Int → Int → SlalomCtx → Option Int × SlalomCtx
  | 0, _, _, _, ctx => (none, ctx)
  | fuel + 1, row, col, cur, ctx =>
    if col < 0 ∨ cols ≤ col then (none, ctx)
    else if row = rows then (some cur, ctx)
    else
      let maxPossible := (maxScorePerRow.drop row).foldl oadd (some cur)
      if oleB maxPossible ctx.best then (none, ctx)
      else
        match ctx.memo.find? (fun p => p.1 == (row, col, cur)) with
        | some p => (p.2, ctx)
        | none =>
          let cell := (matrix.getD row []).getD col.toNat 0
          let r1 := slalomDfs matrix rows cols maxScorePerRow fuel (row + 1) (col - 1) (cur + cell) ctx
          let r2 := slalomDfs matrix rows cols maxScorePerRow fuel (row + 1) col (cur + cell) r1.2
          let r3 := slalomDfs matrix rows cols maxScorePerRow fuel (row + 1) (col + 1) (cur + cell) r2.2
          let score := omax r1.1 (omax r2.1 (omax r3.1 none))
          let ctx2 : SlalomCtx :=
            { memo := memoSet r3.2.memo (row, col, cur) score,
              best := omax r3.2.best score }
          (score, ctx2)

/-- slalom of slalom.ts: zero for an empty matrix, otherwise the best score of
a dfs started from every column of the first row, sharing one memo table and
one running best across the starts.  none stands for the negative infinity the
source returns when no descent exists (a zero-column matrix). -/
def slalom (matrix : List (List Int)) : Option Int :=
  if matrix.length = 0 then some 0
  else
    let rows := matrix.length
    let cols : Int := (matrix.headD []).length
    let maxScorePerRow := matrix.map rowMax
    let run := (List.range (matrix.headD []).length).foldl
      (fun (acc : Option Int × SlalomCtx) c =>
        let r := slalomDfs matrix rows cols maxScorePerRow (rows + 1) 0 (c : Int) 0 acc.2
        (omax acc.1 r.1, r.2))
      (none, ⟨[], none⟩)
    run.1

/-- Stable descending-by-score sort: the JS Array.prototype.sort of ranking
with comparator (a, b) => b[1] - a[1].  The ECMAScript specification requires
the sort to be stable, and for this consistent comparator the stable result is
unique, so a stable insertion sort is a faithful model. -/
def insertByScoreDesc (x : String × Int) : List (String × Int) → List (String × Int)
  | [] => [x]
  | y :: ys => if y.2 ≤ x.2 then x :: y :: ys else y :: insertByScoreDesc x ys

/-- Sort a participant list by score, descending, stably. -/
def sortByScoreDesc : List (String × Int) → List (String × Int)
  | [] => []
  | x :: xs => insertByScoreDesc x (sortByScoreDesc xs)

/-- The map of ranking, threading currentRank, previousScore (undefined for an
empty list, in which case the less-than test is false as in JS) and the
0-based index. -/
def rankingGo (prev : Option Int) (rank : Int) (idx : Nat) :
    List (String × Int) → List (Int × String × Int)
  | [] => []
  | (name, score) :: rest =>
    let lt : Bool := match prev with
      | some p => score < p
      | none => false
    if lt then ((idx : Int) + 1, name, score) :: rankingGo (some score) ((idx : Int) + 1) (idx + 1) rest
    else (rank, name, score) :: rankingGo prev rank (idx + 1) rest

/-- ranking of the ranking module: sort by score descending, then assign ranks
that change only when the score strictly drops, to index + 1. -/
def ranking (participants : List (String × Int)) : List (Int × String × Int) :=
  let sorted := sortByScoreDesc participants
  rankingGo (sorted.head?.map (fun p => p.2)) 1 0 sorted

/-- A concrete input-line parse function: the line itself. -/
def inLineId (s : String) : String := s

/-- The integer value of the first space-separated token of a line. -/
def firstTokenInt (s : String) : Int :=
  (parseIntJS (String.mk ((jsTrim s).data.takeWhile (fun c => c ≠ ' ')))).getD 0

/-- A concrete output-line parse function: the leading index and the whole
line as the output value. -/
def outLineTagged (s : String) : Int × String := (firstTokenInt s, s)

/-- A concrete output-line parse function for integer outputs: the leading
index and the integer value of the second token. -/
def outLineIntInt (s : String) : Int × Int :=
  (firstTokenInt s,
   (parseIntJS (String.mk (((jsTrim s).data.dropWhile (fun c => c ≠ ' ')).dropWhile (fun c => c = ' ')))).getD 0)

/-- C8: the slalom function returns 0 for the empty matrix, 7 for the
single-cell matrix [[7]], and 10 for the single-column matrix [[2],[5],[3]],
where the forced single-column descent sums all cells. -/
theorem slalom_concrete_values :
    slalom [] = some 0 ∧ slalom [[7]] = some 7 ∧ slalom [[2], [5], [3]] = some 10 :=
  ⟨by decide, by decide, by decide⟩

/-- C9: ranking applied to [(Alice,100),(Bob,100),(Charlie,90)] returns
[(1,Alice,100),(1,Bob,100),(3,Charlie,90)]: tied scores share a rank and the
next distinct rank is one plus the number of preceding entries in
sorted-descending order. -/
theorem ranking_tied_scores_example :
    ranking [("Alice", 100), ("Bob", 100), ("Charlie", 90)] =
      [(1, "Alice", 100), (1, "Bob", 100), (3, "Charlie", 90)] := by decide

/-- C7: running the group runner twice on the same harness with the same
transform reports identical failures both times, and the second run leaves the
state of the first run unchanged: the runner reads only the inputs and the
expected-output map, which it never writes. -/
theorem runner_twice_same_failures {TIn TOut : Type} (cmp : TOut → TOut → Bool)
    (st : VPWState TIn TOut) (fn : List TIn → List TOut) :
    (runner cmp (runner cmp st fn).2 fn).1 = (runner cmp st fn).1 ∧
    (runner cmp (runner cmp st fn).2 fn).2 = (runner cmp st fn).2 := by
  constructor <;> simp [runner]

/-- C10: a call to the group runner leaves the parsed inputs, the
expected-output map and the testsExecuted count unchanged; the only field it
writes is the error-inputs list, which it resets to empty at the start. -/
theorem runner_frame {TIn TOut : Type} (cmp : TOut → TOut → Bool)
    (st : VPWState TIn TOut) (fn : List TIn → List TOut) :
    (runner cmp st fn).2.inputs = st.inputs ∧
    (runner cmp st fn).2.outputs = st.outputs ∧
    (runner cmp st fn).2.testCount = st.testCount ∧
    (runner cmp st fn).2.inputs_with_errors = [] := by
  refine ⟨rfl, rfl, rfl, rfl⟩

/-- C2, the divergence the spec itself flags as a latent defect: on a harness
whose initialize succeeded with the single expected output 0 present for test
case 1, the single-value runner throws the missing-expected-output error even
though the entry is present and the transform reproduces it exactly, because
the truthiness test of the source treats the falsy value 0 as missing.  The
claim says the runner functions raise only when the expected output for an
index is missing. -/
theorem simpleRunner_falsy_present_throws :
    initializeHarness inLineId outLineIntInt false "5" "1 0" =
      Except.ok (⟨[["5"]], [(1, [0])], [], 1⟩ : VPWState String Int) ∧
    mapGet ([(1, [0])] : List (Int × List Int)) 1 = some [0] ∧
    (simpleRunner (fun a b => a == b) (fun n => n == 0)
        (⟨[["5"]], [(1, [0])], [], 1⟩ : VPWState String Int) (fun _ => 0)).1.2 =
      some (VPWError.missingExpectedOutput 1) :=
  ⟨by decide, by decide, by decide⟩

/-- C1 fails on the code: for the input file "2 10 20" (two groups parsed) and
an output file whose lines carry the indices 1 and 3, index 2 lies in 1..N and
is absent from the expected-output map, yet initialize succeeds, because
validateFileLengths compares only the collection sizes. -/
theorem validator_counts_only_counterexample :
    readInputFile inLineId true "2\n10\n20" = Except.ok ([["10"], ["20"]], 2) ∧
    (initializeHarness inLineId outLineTagged true "2\n10\n20" "1 a\n3 b").isOk = true ∧
    mapGet (readOutputFile outLineTagged "1 a\n3 b") 2 = none :=
  ⟨by decide, by decide, by decide⟩

/-- C4 fails on the code: in grouped-with-count mode the line "0" passes the
round-trip test and is consumed as a group-size marker of value zero, yielding
an empty group, although it does not parse as a bare positive integer; under
the claim it would instead become the one-record group containing "0". -/
theorem zero_marker_counterexample :
    readInputFile inLineId true "2\n0\nfoo" = Except.ok ([[], ["foo"]], 2) ∧
    ([[], ["foo"]] : List (List String)) ≠ [["0"], ["foo"]] :=
  ⟨by decide, by decide⟩

/-- C5 fails on the code at a file with no non-blank lines: the simple-numeric
classifier applies vacuously, a leading count is expected, and the number of
parsed groups is 0, not the minus one the claim computes. -/
theorem simple_numeric_empty_counterexample :
    isSimpleNumbersFile (nonBlankLines "") = true ∧
    readInputFile inLineId true "" = Except.ok ([], 0) ∧
    ¬((0 : Int) = ((nonBlankLines "").length : Int) - 1) :=
  ⟨by decide, by decide, by decide⟩

/-- When the validator returns a count, the collection sizes agree, are
nonzero, and the count is the group count. -/
theorem validate_ok_val {TIn TOut : Type} (inputs : List (List TIn))
    (outputs : List (Int × List TOut)) (n : Nat)
    (h : validateFileLengths inputs outputs = Except.ok n) :
    inputs.length = outputs.length ∧ inputs.length ≠ 0 ∧ n = inputs.length := by
  unfold validateFileLengths at h
  by_cases h0 : inputs.length = 0
  · rw [if_pos h0] at h; exact Except.noConfusion h
  · rw [if_neg h0] at h
    by_cases hne : inputs.length ≠ outputs.length
    · rw [if_pos hne] at h; exact Except.noConfusion h
    · rw [if_neg hne] at h
      push_neg at hne
      injection h with h2
      exact ⟨hne, h0, h2.symm⟩

/-- The validator succeeds exactly when the collection sizes agree and are
nonzero. -/
theorem validate_isOk_iff {TIn TOut : Type} (inputs : List (List TIn))
    (outputs : List (Int × List TOut)) :
    (validateFileLengths inputs outputs).isOk = true ↔
      (inputs.length = outputs.length ∧ inputs.length ≠ 0) := by
  unfold validateFileLengths
  by_cases h0 : inputs.length = 0
  · rw [if_pos h0]
    exact ⟨fun hfalse => Bool.noConfusion hfalse, fun hc => absurd h0 hc.2⟩
  · rw [if_neg h0]
    by_cases hne : inputs.length ≠ outputs.length
    · rw [if_pos hne]
      exact ⟨fun hfalse => Bool.noConfusion hfalse, fun hc => absurd hc.1 hne⟩
    · rw [if_neg hne]
      push_neg at hne
      exact ⟨fun _ => ⟨hne, h0⟩, fun _ => rfl⟩

/-- When the input file parses, initialize succeeds exactly when the validator
does. -/
theorem init_isOk_eq_validate {TIn TOut : Type} (pI : String → TIn)
    (pO : String → Int × TOut) (rc : Bool) (inC outC : String)
    (inputs : List (List TIn)) (tc : Nat)
    (h : readInputFile pI rc inC = Except.ok (inputs, tc)) :
    (initializeHarness pI pO rc inC outC).isOk =
      (validateFileLengths inputs (readOutputFile pO outC)).isOk := by
  unfold initializeHarness
  rw [h]
  show (match validateFileLengths inputs (readOutputFile pO outC) with
        | Except.error e => Except.error e
        | Except.ok n =>
          Except.ok (⟨inputs, readOutputFile pO outC, [], n⟩ : VPWState TIn TOut)).isOk =
    (validateFileLengths inputs (readOutputFile pO outC)).isOk
  cases validateFileLengths inputs (readOutputFile pO outC) <;> rfl

/-- C1 as amended: after a successful initialize the expected-output map has
exactly as many distinct keys as there are parsed test-case groups, and that
count is nonzero; the validator enforces only this count equality, not that
the keys are the set 1..N. -/
theorem harness_init_key_count {TIn TOut : Type} (pI : String → TIn)
    (pO : String → Int × TOut) (rc : Bool) (inC outC : String)
    (st : VPWState TIn TOut)
    (h : initializeHarness pI pO rc inC outC = Except.ok st) :
    st.outputs.length = st.inputs.length ∧ st.inputs.length ≠ 0 := by
  unfold initializeHarness at h
  split at h
  · exact Except.noConfusion h
  next inputs tc heq =>
    cases hv : validateFileLengths inputs (readOutputFile pO outC) with
    | error e => rw [hv] at h; exact Except.noConfusion h
    | ok n =>
      rw [hv] at h
      injection h with h2
      obtain ⟨hlen, hnz, -⟩ := validate_ok_val inputs (readOutputFile pO outC) n hv
      subst h2
      exact ⟨hlen.symm, hnz⟩

/-- Closed instance of the amended C1 at a concrete file pair. -/
theorem harness_init_key_count_witness :
    (⟨[["10"], ["20"]], [(1, ["1 a"]), (2, ["2 b"])], [], 2⟩ : VPWState String String).outputs.length =
      (⟨[["10"], ["20"]], [(1, ["1 a"]), (2, ["2 b"])], [], 2⟩ : VPWState String String).inputs.length ∧
    (⟨[["10"], ["20"]], [(1, ["1 a"]), (2, ["2 b"])], [], 2⟩ : VPWState String String).inputs.length ≠ 0 :=
  harness_init_key_count inLineId outLineTagged true "2\n10\n20" "1 a\n2 b" _ (by decide)

/-- C3: on a pair whose input file parses, initialize succeeds exactly when
the number of parsed groups equals the number of distinct indices of the
expected-output map and that count is nonzero; and the concrete output file
with indices 1 and 3 against three parsed groups fails with the
count-mismatch error reporting 3 and 2. -/
theorem harness_init_iff_counts {TIn TOut : Type} (pI : String → TIn)
    (pO : String → Int × TOut) (rc : Bool) (inC outC : String)
    (inputs : List (List TIn)) (tc : Nat)
    (h : readInputFile pI rc inC = Except.ok (inputs, tc)) :
    ((initializeHarness pI pO rc inC outC).isOk = true ↔
      (inputs.length = (readOutputFile pO outC).length ∧ inputs.length ≠ 0)) ∧
    initializeHarness inLineId outLineTagged true "3\n10\n20\n30" "1 a\n3 b" =
      Except.error (VPWError.countMismatch 3 2) := by
  refine ⟨?_, by decide⟩
  rw [init_isOk_eq_validate pI pO rc inC outC inputs tc h]
  exact validate_isOk_iff inputs (readOutputFile pO outC)

/-- Closed instance of C3 at a concrete file pair. -/
theorem harness_init_iff_counts_witness :
    ((initializeHarness inLineId outLineTagged true "2\n10\n20" "1 a\n3 b").isOk = true ↔
      (([["10"], ["20"]] : List (List String)).length =
          (readOutputFile outLineTagged "1 a\n3 b").length ∧
        ([["10"], ["20"]] : List (List String)).length ≠ 0)) :=
  (harness_init_iff_counts inLineId outLineTagged true "2\n10\n20" "1 a\n3 b"
    [["10"], ["20"]] 2 (by decide)).1

/-- The inner loop of the grouped branch reads exactly the lines drop c, take
n when they exist, leaving the cursor at c + n. -/
theorem readRecords_eq_drop_take {TIn : Type} (pI : String → TIn)
    (lines : List String) :
    ∀ n c, c + n ≤ lines.length →
      readRecords pI lines n c = (((lines.drop c).take n).map pI, c + n) := by
  intro n
  induction n with
  | zero => intro c h; simp [readRecords]
  | succ k ih =>
    intro c h
    have hc : c < lines.length := by omega
    have hline : lineAt lines c = lines[c] := by
      simp [lineAt, List.getD, List.getElem?_eq_getElem hc]
    have hdrop : lines.drop c = lines[c] :: lines.drop (c + 1) :=
      List.drop_eq_getElem_cons hc
    have hrec := ih (c + 1) (by omega)
    simp only [readRecords, hline, hrec, hdrop, List.take_succ_cons, List.map_cons,
      Prod.mk.injEq]
    exact ⟨by trivial, by omega⟩

/-- C4 as amended: a line is treated as a group-size marker exactly when its
parseInt value, formatted back, equals the trimmed line; any integer
qualifies, including 0 and negatives ("3" and "0" are markers, "03" and "3.0"
are not), and a marker of value G consumes exactly the max(G, 0) following
lines as the records of the group, while a non-marker line becomes a
one-record group by itself. -/
theorem group_marker_step {TIn : Type} (pI : String → TIn) :
    isGroupMarker "3" = true ∧ isGroupMarker "0" = true ∧ isGroupMarker "-2" = true ∧
    isGroupMarker "03" = false ∧ isGroupMarker "3.0" = false ∧
    (∀ lines c, isGroupMarker (lineAt lines c) = false →
      readGroupStep pI lines c = ([pI (lineAt lines c)], c + 1)) ∧
    (∀ lines c (g : Int), parseIntJS (lineAt lines c) = some g →
      intToDec g = jsTrim (lineAt lines c) →
      c + 1 + g.toNat ≤ lines.length →
      readGroupStep pI lines c =
        (((lines.drop (c + 1)).take g.toNat).map pI, c + 1 + g.toNat)) := by
  refine ⟨by decide, by decide, by decide, by decide, by decide, ?_, ?_⟩
  · intro lines c hmark
    unfold isGroupMarker at hmark
    cases hp : parseIntJS (lineAt lines c) with
    | none => simp [readGroupStep, hp]
    | some g =>
      rw [hp] at hmark
      simp only [beq_eq_false_iff_ne, ne_eq] at hmark
      simp [readGroupStep, hp, hmark]
  · intro lines c g hp hfmt hlen
    simp only [readGroupStep, hp, hfmt, beq_self_eq_true, if_true]
    exact readRecords_eq_drop_take pI lines g.toNat (c + 1) hlen

/-- Closed instance of the amended C4: a non-marker line becomes its own group
and a marker of value 2 consumes the two following lines. -/
theorem group_marker_step_witness :
    readGroupStep inLineId ["x"] 0 = ([inLineId (lineAt ["x"] 0)], 0 + 1) ∧
    readGroupStep inLineId ["2", "a", "b"] 0 =
      (((["2", "a", "b"].drop (0 + 1)).take (Int.toNat 2)).map inLineId, 0 + 1 + Int.toNat 2) :=
  ⟨(group_marker_step inLineId).2.2.2.2.2.1 ["x"] 0 (by decide),
   (group_marker_step inLineId).2.2.2.2.2.2 ["2", "a", "b"] 0 2 (by decide) (by decide) (by decide)⟩

/-- C5 as amended: whenever the simple-numeric classifier applies, every
parsed group contains exactly one record, and the number of groups is the
number of non-blank lines minus one when a leading count line is expected
(zero for a file with no non-blank line), else the number of non-blank
lines. -/
theorem simple_numeric_shape {TIn : Type} (pI : String → TIn) (rc : Bool)
    (content : String)
    (h : isSimpleNumbersFile (nonBlankLines content) = true) :
    ∀ inputs tc, readInputFile pI rc content = Except.ok (inputs, tc) →
      (∀ g ∈ inputs, g.length = 1) ∧
      inputs.length =
        (if rc then (nonBlankLines content).length - 1
         else (nonBlankLines content).length) := by
  intro inputs tc hrun
  unfold readInputFile at hrun
  rw [if_pos h] at hrun
  simp only [Except.ok.injEq, Prod.mk.injEq] at hrun
  obtain ⟨hin, -⟩ := hrun
  subst hin
  constructor
  · intro g hg
    obtain ⟨l, -, rfl⟩ := List.mem_map.mp hg
    rfl
  · cases rc <;> simp

/-- Closed instance of the amended C5 at a concrete simple-numeric file. -/
theorem simple_numeric_shape_witness :
    (∀ g ∈ ([["2"], ["3"]] : List (List String)), g.length = 1) ∧
    ([["2"], ["3"]] : List (List String)).length =
      (if true then (nonBlankLines "1\n2\n3").length - 1
       else (nonBlankLines "1\n2\n3").length) :=
  simple_numeric_shape inLineId true "1\n2\n3" (by decide) [["2"], ["3"]] 2 (by decide)

/-- C6: with no leading count line expected and the file not classified
simple-numeric, parsing fails with the grouping-unsupported format error
exactly when some non-blank line is a group-size marker greater than one, and
otherwise every non-blank line becomes one single-record group, in line
order. -/
theorem nocount_marker_gt1 {TIn : Type} (pI : String → TIn) (content : String)
    (h : isSimpleNumbersFile (nonBlankLines content) = false) :
    (readInputFile pI false content = Except.error VPWError.groupedUnsupported ↔
      (nonBlankLines content).any markerGt1 = true) ∧
    ((nonBlankLines content).any markerGt1 = false →
      readInputFile pI false content =
        Except.ok ((nonBlankLines content).map (fun l => [pI l]),
          (nonBlankLines content).length)) := by
  unfold readInputFile
  rw [if_neg (by simp [h])]
  simp only [Bool.false_eq_true, if_false]
  by_cases hany : (nonBlankLines content).any markerGt1 = true
  · rw [if_pos hany]
    exact ⟨by simp [hany], fun hfalse => by rw [hany] at hfalse; cases hfalse⟩
  · rw [if_neg hany]
    refine ⟨⟨fun he => by simp at he, fun ht => absurd ht hany⟩, fun _ => rfl⟩

/-- Closed instance of C6 at a concrete non-numeric file without group
markers. -/
theorem nocount_marker_gt1_witness :
    readInputFile inLineId false "a\nb" = Except.error VPWError.groupedUnsupported ↔
      (nonBlankLines "a\nb").any markerGt1 = true :=
  (nocount_marker_gt1 inLineId "a\nb" (by decide)).1

end VPW
